import Mathlib

set_option maxRecDepth 2048

/-!
Shallow embedding of the RAG retrieval subsystem of the repository
(files app/rag/retriever.py and app/rag/vectorstore.py, with the ORM row
types of app/models/contract.py).

Modelling conventions:
* Python floats are modelled as real numbers; `math.sqrt` is `Real.sqrt`.
* UUID values are modelled as natural numbers; `datetime` values as
  natural numbers ordered by time.
* Nullable ORM string columns are modelled as `String`, with the empty
  string standing for NULL; Python's `x or default` idiom on such a
  column is `pyOr` below (both NULL and the empty string are falsy).
* The relational session is a `DB` record of the four row tables; a SQL
  query is a filter/sort/limit pipeline over those lists, and
  `ORDER BY ... DESC` is a stable descending insertion sort (SQL leaves
  tie order open; Python's `list.sort` is stable, and both are modelled
  by the same `sortKeyDesc`).
* The two external services (the OpenAI embedding provider behind
  `create_query_embedding` and the Qdrant search behind
  `search_similar_clauses`) are taken as function parameters, so every
  theorem quantifies over all their possible behaviours.
* The TEXT column `embedding_json` is modelled by `EmbJson`: `ok v`
  stands for a string that `json.loads` turns into a list of floats,
  `notList` for a string that parses to a non-list JSON value, and
  `malformed` for a string on which `json.loads` (or the subsequent
  arithmetic) raises.
-/

/-- Row of the documents table (class Document in app/models/contract.py). -/
structure Document where
  id : Nat
  filename : String
  status : String
  created_at : Nat
  owner_id : Nat
deriving DecidableEq, Repr

/-- Row of the clauses table (class Clause in app/models/contract.py). -/
structure Clause where
  id : Nat
  document_id : Nat
  clause_number : String
  title : String
  body : String
deriving DecidableEq, Repr

/-- Row of the clause_analysis table (class ClauseAnalysis in app/models/contract.py). -/
structure ClauseAnalysis where
  id : Nat
  clause_id : Nat
  risk_level : String
  summary : String
  suggestion : String
deriving DecidableEq, Repr

/-- Model of the stored `embedding_json` TEXT column, classified by what
`json.loads` does to it: a JSON array of numbers, some other JSON value,
or a string on which parsing (or the later arithmetic) raises. -/
inductive EmbJson where
  | ok (v : List ℝ)
  | notList
  | malformed

/-- Row of the clause_embeddings table (class ClauseEmbedding in app/models/contract.py). -/
structure ClauseEmbedding where
  id : Nat
  clause_id : Nat
  user_id : Nat
  document_id : Nat
  embedding_model : String
  embedding_json : EmbJson
  content : String
  created_at : Nat

/-- The relational store: one list per table touched by the retrieval code. -/
structure DB where
  documents : List Document
  clauses : List Clause
  analyses : List ClauseAnalysis
  embeddings : List ClauseEmbedding

/-- A joined row (Clause, ClauseAnalysis, Document) as returned by the
three-way joins in retriever.py. -/
def Row : Type := Clause × ClauseAnalysis × Document

instance : DecidableEq Row :=
  inferInstanceAs (DecidableEq (Clause × ClauseAnalysis × Document))

/-- Citation dataclass of retriever.py. -/
structure Citation where
  clause_id : Nat
  document_id : Nat
  document_filename : String
  clause_number : String
  clause_title : String
  risk_level : String
  score : ℝ

/-- RetrievalResult dataclass of retriever.py. -/
structure RetrievalResult where
  context : String
  citations : List Citation

/-- Python's `str.strip()`: drop leading and trailing whitespace. -/
def pyStrip (s : String) : String :=
  String.mk
    (((s.toList.dropWhile Char.isWhitespace).reverse.dropWhile
        Char.isWhitespace).reverse)

/-- Python's slice `s[:n]`: the first n characters of the string. -/
def pyTake (s : String) (n : Nat) : String :=
  String.mk (s.toList.take n)

/-- Python's `s or d` for a nullable string column (NULL is modelled as ""). -/
def pyOr (s d : String) : String :=
  if s.isEmpty then d else s

/-- Python's `round(x, 4)`: the score rounded to four decimal places. -/
noncomputable def round4 (x : ℝ) : ℝ :=
  (round (x * 10000) : ℤ) / 10000

/-- Left-fold summation used by Python's builtin `sum` over a generator. -/
def pySum (l : List ℝ) : ℝ :=
  l.foldl (fun s x => s + x) 0

/-- The generator `sum(x * y for x, y in zip(a, b))` in _cosine_similarity. -/
def dotList (a b : List ℝ) : ℝ :=
  pySum ((a.zip b).map (fun p => p.1 * p.2))

/-- The generator `sum(x * x for x in a)` in _cosine_similarity. -/
def sumSq (a : List ℝ) : ℝ :=
  pySum (a.map (fun x => x * x))

/-- The function _cosine_similarity of app/rag/retriever.py. -/
noncomputable def cosine_similarity (a b : List ℝ) : ℝ :=
  if a.isEmpty || b.isEmpty || a.length != b.length then -1.0
  else
    let dot := dotList a b
    let norm_a := Real.sqrt (sumSq a)
    let norm_b := Real.sqrt (sumSq b)
    if norm_a = 0 ∨ norm_b = 0 then -1.0
    else dot / (norm_a * norm_b)

/-- Membership test of the regex character class [0-9A-Za-z가-힣] of _tokenize. -/
def isTokenChar (c : Char) : Bool :=
  (('0' ≤ c && c ≤ '9') || ('a' ≤ c && c ≤ 'z') || ('A' ≤ c && c ≤ 'Z')
    || ('가' ≤ c && c ≤ '힣'))

/-- Maximal runs of token characters in a character stream; the function of
re.findall on the class [0-9A-Za-z가-힣] before the length bound is applied.
The second argument accumulates the current run in reverse. -/
def tokenRuns : List Char → List Char → List (List Char)
  | [], acc => if acc.isEmpty then [] else [acc.reverse]
  | c :: cs, acc =>
      if isTokenChar c then tokenRuns cs (c :: acc)
      else if acc.isEmpty then tokenRuns cs []
      else acc.reverse :: tokenRuns cs []

/-- The function _tokenize of app/rag/retriever.py: lowercase the text, take
the maximal runs of characters in [0-9A-Za-z가-힣], and keep those of length
at least 2 (the {2,} bound of the regex). The Python result is a set; the
set is modelled as the deduplicated list, built where the set is consumed. -/
def tokenize (text : String) : List String :=
  ((tokenRuns (text.toList.map Char.toLower) []).filter
      (fun r => 2 ≤ r.length)).map (fun r => String.mk r)

/-- The `" ".join([...])` target text of _lexical_score: clause number,
title, analysis summary, suggestion, and the first 500 characters of the
clause body. -/
def lexicalTarget (row : Row) : String :=
  String.intercalate " "
    [row.1.clause_number, row.1.title, row.2.1.summary, row.2.1.suggestion,
      pyTake row.1.body 500]

/-- The function _lexical_score of app/rag/retriever.py. -/
noncomputable def lexical_score (query_text : String) (row : Row) : ℝ :=
  let query_tokens := (tokenize query_text).dedup
  if query_tokens.isEmpty then 0
  else
    let target_tokens := (tokenize (lexicalTarget row)).dedup
    if target_tokens.isEmpty then 0
    else
      let overlap := query_tokens.filter (fun t => target_tokens.contains t)
      (overlap.length : ℝ) / (max query_tokens.length 1 : ℕ)

/-- The function _risk_boost of app/rag/retriever.py. -/
def risk_boost (risk_level : String) : ℝ :=
  if risk_level = "HIGH" then 0.05
  else if risk_level = "MEDIUM" then 0.02
  else 0

/-- The dict lookup `{"HIGH": ..., ...}.get(risk_level, "미분류")` of
_format_context_rows. -/
def riskLabel (risk_level : String) : String :=
  if risk_level = "HIGH" then "🔴 위험"
  else if risk_level = "MEDIUM" then "🟡 주의"
  else if risk_level = "LOW" then "🟢 안전"
  else "미분류"

/-- One clause block of _format_context_rows (the f-string `block`,
including the optional original-text line). -/
def clauseBlock (row : Row) : String :=
  let base :=
    "\n[" ++ row.1.clause_number ++ " - " ++ row.1.title ++ "]\n- 위험도: "
      ++ row.2.1.risk_level ++ " (" ++ riskLabel row.2.1.risk_level
      ++ ")\n- 분석 요약: " ++ row.2.1.summary
      ++ "\n- 수정 제안: " ++ row.2.1.suggestion
  if row.1.body.isEmpty then base
  else base ++ "\n- 원문: " ++ pyTake row.1.body 500

/-- The loop body of _format_context_rows: walk the rows with the
`current_doc` tracker, emitting a document header whenever the document id
differs from the previous row's. -/
def contextParts : Option Nat → List Row → List String
  | _, [] => []
  | current_doc, row :: rest =>
      let headed :=
        if current_doc = some row.2.2.id then [clauseBlock row]
        else ("\n=== 문서: " ++ row.2.2.filename ++ " ===") :: [clauseBlock row]
      headed ++ contextParts (some row.2.2.id) rest

/-- The fixed sentinel returned for an empty row list. -/
def noDataSentinel : String :=
  "아직 분석된 계약서 데이터가 없습니다."

/-- The function _format_context_rows of app/rag/retriever.py. -/
def format_context_rows (rows : List Row) : String :=
  if rows.isEmpty then noDataSentinel
  else String.intercalate "\n" (contextParts none rows)

/-- Stable descending sort by a key: the model of both SQL
`ORDER BY key DESC` and Python's stable `list.sort(key=..., reverse=True)`.
An element goes before another exactly when its key is strictly greater or
when the keys tie and it came first, which is what Mathlib's insertion sort
computes for the relation `key b ≤ key a`. -/
def sortKeyDesc {α : Type} {β : Type} [LinearOrder β] (key : α → β)
    (l : List α) : List α :=
  @List.insertionSort α (fun a b => key b ≤ key a)
    (fun a b => inferInstanceAs (Decidable (key b ≤ key a))) l

/-- The three-way join
Clause JOIN ClauseAnalysis ON clause_id JOIN Document ON document_id
shared by build_contract_context, _fetch_rows_for_clause_ids and
backfill_user_embeddings. -/
def joinedRows (db : DB) : List Row :=
  db.clauses.flatMap (fun c =>
    (db.analyses.filter (fun a => a.clause_id == c.id)).flatMap (fun a =>
      (db.documents.filter (fun d => d.id == c.document_id)).map
        (fun d => (c, a, d))))

/-- The optional `.filter(Document.id == document_id)` guard: Python skips
the filter when document_id is None. -/
def docFilter (document_id : Option Nat) (d : Document) : Bool :=
  match document_id with
  | some did => d.id == did
  | none => true

/-- The optional `.filter(Clause.id.in_(clause_ids))` guard of
build_contract_context: Python's `if clause_ids:` also skips the filter for
an empty list. -/
def clauseIdsFilter (clause_ids : Option (List Nat)) (c : Clause) : Bool :=
  match clause_ids with
  | some ids => if ids.isEmpty then true else ids.contains c.id
  | none => true

/-- The filtered join of build_contract_context, before ordering/limit. -/
def contractContextRows (db : DB) (user_id : Nat) (document_id : Option Nat)
    (clause_ids : Option (List Nat)) : List Row :=
  (joinedRows db).filter (fun r =>
    r.2.2.owner_id == user_id && r.2.2.status == "done"
      && docFilter document_id r.2.2 && clauseIdsFilter clause_ids r.1)

/-- MAX_CLAUSES of app/rag/retriever.py. -/
def MAX_CLAUSES : Nat := 50

/-- MAX_VECTOR_CANDIDATES of app/rag/retriever.py. -/
def MAX_VECTOR_CANDIDATES : Nat := 500

/-- The function build_contract_context of app/rag/retriever.py
(exposed to callers as the unranked context builder): filter by owner and
"done" status plus the optional document/clause filters, order by document
creation time descending, truncate to MAX_CLAUSES rows, format. -/
def build_contract_context (db : DB) (user_id : Nat)
    (document_id : Option Nat) (clause_ids : Option (List Nat)) : String :=
  format_context_rows
    ((sortKeyDesc (fun r : Row => r.2.2.created_at)
        (contractContextRows db user_id document_id clause_ids)).take MAX_CLAUSES)

/-- The ClauseEmbedding query of _fallback_bruteforce_search: rows of the
owner (and optionally one document), most recently created first, at most
MAX_VECTOR_CANDIDATES of them. -/
def bruteforceCandidates (db : DB) (user_id : Nat)
    (document_id : Option Nat) : List ClauseEmbedding :=
  (sortKeyDesc (fun e : ClauseEmbedding => e.created_at)
      (db.embeddings.filter (fun e =>
        e.user_id == user_id
          && (match document_id with
              | some did => e.document_id == did
              | none => true)))).take MAX_VECTOR_CANDIDATES

/-- The scoring loop of _fallback_bruteforce_search: parse each stored
vector, skip rows that do not parse to a list (or raise), and keep
(similarity, clause_id) for rows at or above the threshold, in candidate
order. -/
noncomputable def bruteforceScored (query_embedding : List ℝ)
    (min_similarity : ℝ) (candidates : List ClauseEmbedding) :
    List (ℝ × Nat) :=
  candidates.filterMap (fun item =>
    match item.embedding_json with
    | EmbJson.ok emb =>
        let sim := cosine_similarity query_embedding emb
        if min_similarity ≤ sim then some (sim, item.clause_id) else none
    | EmbJson.notList => none
    | EmbJson.malformed => none)

/-- The function _fallback_bruteforce_search of app/rag/retriever.py. -/
noncomputable def fallback_bruteforce_search (db : DB) (user_id : Nat)
    (query_embedding : List ℝ) (document_id : Option Nat)
    (candidate_k : Int) (min_similarity : ℝ) : List (Nat × ℝ) :=
  let candidates := bruteforceCandidates db user_id document_id
  if candidates.isEmpty then []
  else
    let scored := bruteforceScored query_embedding min_similarity candidates
    ((sortKeyDesc (fun p : ℝ × Nat => p.1) scored).take
        (max candidate_k 1).toNat).map (fun p => (p.2, p.1))

/-- The function _fetch_rows_for_clause_ids of app/rag/retriever.py: the
relational re-fetch that re-applies the owner and status filters to the
candidate clause ids. -/
def fetch_rows_for_clause_ids (db : DB) (user_id : Nat)
    (clause_ids : List Nat) (document_id : Option Nat) : List Row :=
  if clause_ids.isEmpty then []
  else
    (joinedRows db).filter (fun r =>
      r.2.2.owner_id == user_id && r.2.2.status == "done"
        && clause_ids.contains r.1.id && docFilter document_id r.2.2)

/-- The dict `{clause_id: score for clause_id, score in vector_hits}` with
`.get(clause_id, 0.0)`: a dict comprehension keeps the last binding of a
repeated key, so the lookup scans the reversed list. -/
def vectorScoreMapGet (vector_hits : List (Nat × ℝ)) (clause_id : Nat) : ℝ :=
  match vector_hits.reverse.find? (fun p => p.1 == clause_id) with
  | some p => p.2
  | none => 0

/-- The fused score of one fetched row in retrieve_relevant_context:
0.75·vector + 0.20·lexical + risk boost when rerank is on, the raw vector
score otherwise. -/
noncomputable def fusedScore (query_text : String)
    (vector_hits : List (Nat × ℝ)) (use_rerank : Bool) (row : Row) : ℝ :=
  let v_score := vectorScoreMapGet vector_hits row.1.id
  if use_rerank then
    (0.75 * v_score) + (0.20 * lexical_score query_text row)
      + risk_boost row.2.1.risk_level
  else v_score

/-- The scoring loop of retrieve_relevant_context: pair every fetched row
with its fused score, in fetch order. -/
noncomputable def fuseRows (query_text : String)
    (vector_hits : List (Nat × ℝ)) (use_rerank : Bool) (rows : List Row) :
    List (ℝ × Row) :=
  rows.map (fun row =>
    (fusedScore query_text vector_hits use_rerank row, row))

/-- The statement `ranked_rows.sort(key=lambda x: x[0], reverse=True)`. -/
noncomputable def rankRows (scored : List (ℝ × Row)) : List (ℝ × Row) :=
  sortKeyDesc (fun p : ℝ × Row => p.1) scored

/-- One Citation record of the citation list comprehension of
retrieve_relevant_context. -/
noncomputable def mkCitation (score : ℝ) (row : Row) : Citation :=
  { clause_id := row.1.id
    document_id := row.2.2.id
    document_filename := row.2.2.filename
    clause_number := pyOr row.1.clause_number "미분류"
    clause_title := pyOr row.1.title "제목 없음"
    risk_level := pyOr row.2.1.risk_level "UNKNOWN"
    score := round4 score }

/-- The function create_query_embedding of app/rag/vectorstore.py, with the
external OpenAI embeddings call abstracted as the parameter p. -/
def create_query_embedding (p : String → List ℝ) (text : String) :
    List ℝ :=
  let cleaned := pyStrip text
  if cleaned.isEmpty then [] else p cleaned

/-- The candidate (clause_id, score) list of one retrieval call: tier 1 is
the external index search, tier 2 the brute-force fallback when tier 1 came
back empty. -/
noncomputable def retrievalHits (p : String → List ℝ)
    (q : List ℝ → Nat → Option Nat → Int → ℝ → List (Nat × ℝ))
    (db : DB) (user_id : Nat) (query_text : String)
    (document_id : Option Nat) (min_similarity : ℝ) (candidate_k : Int) :
    List (Nat × ℝ) :=
  let query_embedding := create_query_embedding p query_text
  let tier1 := q query_embedding user_id document_id (max candidate_k 1)
    min_similarity
  if tier1.isEmpty then
    fallback_bruteforce_search db user_id query_embedding document_id
      candidate_k min_similarity
  else tier1

/-- The re-filtered relational fetch of one retrieval call. -/
noncomputable def retrievalRows (p : String → List ℝ)
    (q : List ℝ → Nat → Option Nat → Int → ℝ → List (Nat × ℝ))
    (db : DB) (user_id : Nat) (query_text : String)
    (document_id : Option Nat) (min_similarity : ℝ) (candidate_k : Int) :
    List Row :=
  fetch_rows_for_clause_ids db user_id
    ((retrievalHits p q db user_id query_text document_id min_similarity
        candidate_k).map (fun h => h.1))
    document_id

/-- The fused, descending-sorted row list of one retrieval call. -/
noncomputable def retrievalRanked (p : String → List ℝ)
    (q : List ℝ → Nat → Option Nat → Int → ℝ → List (Nat × ℝ))
    (db : DB) (user_id : Nat) (query_text : String)
    (document_id : Option Nat) (min_similarity : ℝ) (candidate_k : Int)
    (use_rerank : Bool) : List (ℝ × Row) :=
  rankRows (fuseRows query_text
    (retrievalHits p q db user_id query_text document_id min_similarity
      candidate_k)
    use_rerank
    (retrievalRows p q db user_id query_text document_id min_similarity
      candidate_k))

/-- The function retrieve_relevant_context of app/rag/retriever.py. The
external services are the parameters p (embedding provider) and q (Qdrant
search_similar_clauses, taking query embedding, user, document, limit and
threshold). -/
noncomputable def retrieve_relevant_context (p : String → List ℝ)
    (q : List ℝ → Nat → Option Nat → Int → ℝ → List (Nat × ℝ))
    (db : DB) (user_id : Nat) (query_text : String)
    (document_id : Option Nat) (top_k : Int) (min_similarity : ℝ)
    (candidate_k : Int) (use_rerank : Bool) : RetrievalResult :=
  let query_embedding := create_query_embedding p query_text
  if query_embedding.isEmpty then
    { context := build_contract_context db user_id document_id none
      citations := [] }
  else
    let vector_hits := retrievalHits p q db user_id query_text document_id
      min_similarity candidate_k
    if vector_hits.isEmpty then
      { context := build_contract_context db user_id document_id none
        citations := [] }
    else
      let rows := retrievalRows p q db user_id query_text document_id
        min_similarity candidate_k
      if rows.isEmpty then
        { context := build_contract_context db user_id document_id none
          citations := [] }
      else
        let ranked_rows := retrievalRanked p q db user_id query_text
          document_id min_similarity candidate_k use_rerank
        let selected := ranked_rows.take (max top_k 1).toNat
        { context := format_context_rows (selected.map (fun x => x.2))
          citations := selected.map (fun x => mkCitation x.1 x.2) }

/-- EMBEDDING_MODEL of app/rag/vectorstore.py. -/
def EMBEDDING_MODEL : String := "text-embedding-3-small"

/-- The function _build_embedding_text of app/rag/vectorstore.py. -/
def build_embedding_text (clause : Clause)
    (analysis : Option ClauseAnalysis) : String :=
  let summary := match analysis with | some a => a.summary | none => ""
  let suggestion := match analysis with | some a => a.suggestion | none => ""
  let risk_level := match analysis with
    | some a => a.risk_level
    | none => "UNKNOWN"
  pyStrip (String.intercalate "\n"
    ["조항번호: " ++ clause.clause_number,
      "제목: " ++ clause.title,
      "위험도: " ++ risk_level,
      "요약: " ++ summary,
      "수정제안: " ++ suggestion,
      "원문: " ++ clause.body])

/-- In-place update of the first matching row, the model of mutating the
object returned by `.first()` inside the open session. -/
def updateFirst {α : Type} (p : α → Bool) (f : α → α) : List α → List α
  | [] => []
  | x :: xs => if p x then f x :: xs else x :: updateFirst p f xs

/-- The function upsert_clause_embedding of app/rag/vectorstore.py,
restricted to its relational effect (the Qdrant mirror write is
fire-and-forget and touches no relational state). The fresh uuid4 primary
key of a new row is modelled as a value unused elsewhere in the claims;
`json.dumps(embedding)` is modelled as `EmbJson.ok embedding`, which the
fallback matcher deserializes losslessly. -/
def upsert_clause_embedding (p : String → List ℝ) (db : DB)
    (clause : Clause) (analysis : Option ClauseAnalysis) (user_id : Nat)
    (document_id : Nat) : DB :=
  let content := build_embedding_text clause analysis
  if content.isEmpty then db
  else
    let embedding := create_query_embedding p content
    if embedding.isEmpty then db
    else
      match db.embeddings.find? (fun e => e.clause_id == clause.id) with
      | some _ =>
          { db with
              embeddings :=
                updateFirst (fun e => e.clause_id == clause.id)
                  (fun e =>
                    { e with
                        embedding_model := EMBEDDING_MODEL,
                        embedding_json := EmbJson.ok embedding,
                        content := content,
                        user_id := user_id,
                        document_id := document_id })
                  db.embeddings }
      | none =>
          { db with
              embeddings := db.embeddings ++
                [{ id := db.embeddings.length,
                   clause_id := clause.id,
                   user_id := user_id,
                   document_id := document_id,
                   embedding_model := EMBEDDING_MODEL,
                   embedding_json := EmbJson.ok embedding,
                   content := content,
                   created_at := 0 }] }

/-- The backfill query of backfill_user_embeddings: "done" rows of the
owner whose clause has no embedding row (the LEFT OUTER JOIN with the
`ClauseEmbedding.id IS NULL` filter), with the optional document filter. -/
def backfillRows (db : DB) (user_id : Nat) (document_id : Option Nat) :
    List Row :=
  (joinedRows db).filter (fun r =>
    r.2.2.owner_id == user_id && r.2.2.status == "done"
      && (db.embeddings.find? (fun e => e.clause_id == r.1.id)).isNone
      && docFilter document_id r.2.2)

/-- The function backfill_user_embeddings of app/rag/vectorstore.py: sweep
the un-embedded rows, upsert each, count every swept row; returns the
final session state together with the count. -/
def backfill_user_embeddings (p : String → List ℝ) (db : DB)
    (user_id : Nat) (document_id : Option Nat) : DB × Nat :=
  (backfillRows db user_id document_id).foldl
    (fun acc r =>
      (upsert_clause_embedding p acc.1 r.1 (some r.2.1) user_id r.2.2.id,
        acc.2 + 1))
    (db, 0)

lemma sortKeyDesc_perm {α β : Type} [LinearOrder β] (key : α → β)
    (l : List α) : (sortKeyDesc key l).Perm l :=
  @List.perm_insertionSort α (fun a b => key b ≤ key a)
    (fun a b => inferInstanceAs (Decidable (key b ≤ key a))) l

lemma sortKeyDesc_sorted {α β : Type} [LinearOrder β] (key : α → β)
    (l : List α) :
    List.Pairwise (fun a b => key b ≤ key a) (sortKeyDesc key l) := by
  haveI : IsTotal α (fun a b => key b ≤ key a) :=
    ⟨fun a b => le_total (key b) (key a)⟩
  haveI : IsTrans α (fun a b => key b ≤ key a) :=
    ⟨fun _ _ _ hab hbc => le_trans hbc hab⟩
  exact @List.sorted_insertionSort α (fun a b => key b ≤ key a)
    (fun a b => inferInstanceAs (Decidable (key b ≤ key a))) _ _ l

lemma sortKeyDesc_filter_stable {α β : Type} [LinearOrder β] (key : α → β)
    (p : α → Bool) (l : List α)
    (hp : ∀ x y, p x = true → p y = true → key x = key y) :
    (sortKeyDesc key l).filter p = l.filter p := by
  have hpair : List.Pairwise (fun a b => key b ≤ key a) (l.filter p) := by
    apply List.pairwise_of_forall_mem_list
    intro a ha b hb
    have hpa := (List.mem_filter.mp ha).2
    have hpb := (List.mem_filter.mp hb).2
    exact le_of_eq (hp b a hpb hpa)
  have hsub1 : (l.filter p).Sublist (sortKeyDesc key l) :=
    @List.sublist_insertionSort α (fun a b => key b ≤ key a)
      (fun a b => inferInstanceAs (Decidable (key b ≤ key a))) l
      (l.filter p) hpair (List.filter_sublist l)
  have hsub2 : (l.filter p).Sublist ((sortKeyDesc key l).filter p) := by
    have h := hsub1.filter p
    rwa [List.filter_filter, (by
      funext a; cases p a <;> rfl : (fun a => p a && p a) = p)] at h
  have hperm : ((sortKeyDesc key l).filter p).Perm (l.filter p) :=
    (sortKeyDesc_perm key l).filter p
  exact (hsub2.eq_of_length hperm.length_eq.symm).symm

lemma sortKeyDesc_mem {α β : Type} [LinearOrder β] (key : α → β)
    (l : List α) (x : α) : x ∈ sortKeyDesc key l ↔ x ∈ l :=
  (sortKeyDesc_perm key l).mem_iff

lemma pySum_foldl_shift (l : List ℝ) : ∀ c : ℝ,
    l.foldl (fun s x => s + x) c = c + pySum l := by
  induction l with
  | nil => intro c; simp [pySum]
  | cons x xs ih =>
      intro c
      simp only [pySum, List.foldl_cons] at *
      rw [ih (c + x), ih (0 + x)]
      ring

lemma pySum_cons (x : ℝ) (l : List ℝ) : pySum (x :: l) = x + pySum l := by
  simp only [pySum, List.foldl_cons]
  rw [pySum_foldl_shift]
  simp [pySum]

lemma dotList_nil_left (b : List ℝ) : dotList [] b = 0 := rfl

lemma dotList_nil_right (a : List ℝ) : dotList a [] = 0 := by
  simp [dotList, pySum]

lemma dotList_cons (x y : ℝ) (a b : List ℝ) :
    dotList (x :: a) (y :: b) = x * y + dotList a b := by
  simp only [dotList, List.zip_cons_cons, List.map_cons]
  exact pySum_cons _ _

lemma sumSq_nil : sumSq ([] : List ℝ) = 0 := rfl

lemma sumSq_cons (x : ℝ) (a : List ℝ) : sumSq (x :: a) = x * x + sumSq a := by
  simp only [sumSq, List.map_cons]
  exact pySum_cons _ _

lemma sumSq_nonneg (a : List ℝ) : 0 ≤ sumSq a := by
  induction a with
  | nil => simp [sumSq_nil]
  | cons x xs ih => rw [sumSq_cons]; nlinarith [mul_self_nonneg x]

lemma dotList_self (a : List ℝ) : dotList a a = sumSq a := by
  induction a with
  | nil => rfl
  | cons x xs ih => rw [dotList_cons, sumSq_cons, ih]

lemma dotList_sq_le (a : List ℝ) : ∀ b : List ℝ,
    dotList a b ^ 2 ≤ sumSq a * sumSq b := by
  induction a with
  | nil =>
      intro b
      simp [dotList_nil_left, sumSq_nil]
  | cons x xs ih =>
      intro b
      cases b with
      | nil => simp [dotList_nil_right, sumSq_nil]
      | cons y ys =>
          have hih := ih ys
          have hA := sumSq_nonneg xs
          have hB := sumSq_nonneg ys
          rw [dotList_cons, sumSq_cons, sumSq_cons]
          rcases eq_or_lt_of_le hB with hB0 | hBpos
          · have hS2 : dotList xs ys ^ 2 = 0 := by
              have h1 : dotList xs ys ^ 2 ≤ 0 := by
                rw [← hB0] at hih
                simpa using hih
              exact le_antisymm h1 (sq_nonneg _)
            have hS : dotList xs ys = 0 := by
              exact pow_eq_zero_iff (n := 2) (by norm_num) |>.mp hS2
            rw [hS, ← hB0]
            nlinarith [mul_nonneg hA (mul_self_nonneg y)]
          · nlinarith [sq_nonneg (sumSq ys * x - dotList xs ys * y),
              mul_nonneg (add_nonneg (mul_self_nonneg y) hB)
                (sub_nonneg.mpr hih), hBpos]

lemma sumSq_pos_of_sqrt_ne_zero {a : List ℝ}
    (h : Real.sqrt (sumSq a) ≠ 0) : 0 < sumSq a := by
  rcases lt_or_eq_of_le (sumSq_nonneg a) with hpos | hzero
  · exact hpos
  · exact absurd (by rw [← hzero, Real.sqrt_zero]) h

lemma ne_nil_of_sqrt_sumSq_ne_zero {a : List ℝ}
    (h : Real.sqrt (sumSq a) ≠ 0) : a ≠ [] := by
  rintro rfl
  exact h (by rw [sumSq_nil, Real.sqrt_zero])

/-- C2: _cosine_similarity is total and satisfies: empty input, mismatched
lengths, or a zero norm yield exactly -1.0; otherwise the result is
dot(a,b)/(‖a‖·‖b‖), lies in [-1, 1], and identical vectors yield exactly 1. -/
theorem cosine_similarity_spec :
    (∀ a b : List ℝ, a = [] ∨ b = [] ∨ a.length ≠ b.length →
        cosine_similarity a b = -1.0)
    ∧ (∀ a b : List ℝ,
        Real.sqrt (sumSq a) = 0 ∨ Real.sqrt (sumSq b) = 0 →
        cosine_similarity a b = -1.0)
    ∧ (∀ a b : List ℝ, a.length = b.length →
        Real.sqrt (sumSq a) ≠ 0 → Real.sqrt (sumSq b) ≠ 0 →
        cosine_similarity a b
            = dotList a b / (Real.sqrt (sumSq a) * Real.sqrt (sumSq b))
          ∧ -1 ≤ cosine_similarity a b ∧ cosine_similarity a b ≤ 1)
    ∧ (∀ a : List ℝ, Real.sqrt (sumSq a) ≠ 0 →
        cosine_similarity a a = 1) := by
  have hval : ∀ a b : List ℝ, a.length = b.length →
      Real.sqrt (sumSq a) ≠ 0 → Real.sqrt (sumSq b) ≠ 0 →
      cosine_similarity a b
        = dotList a b / (Real.sqrt (sumSq a) * Real.sqrt (sumSq b)) := by
    intro a b hlen hna hnb
    have ha := ne_nil_of_sqrt_sumSq_ne_zero hna
    have hb := ne_nil_of_sqrt_sumSq_ne_zero hnb
    have hg : (a.isEmpty || b.isEmpty || a.length != b.length) = false := by
      simp [List.isEmpty_eq_false, ha, hb, hlen]
    simp only [cosine_similarity]
    rw [if_neg (by simp [hg]), if_neg (by simp [hna, hnb])]
  refine ⟨?_, ?_, ?_, ?_⟩
  · intro a b h
    rcases h with h | h | h
    · simp [cosine_similarity, h]
    · simp [cosine_similarity, h]
    · simp only [cosine_similarity]
      rw [if_pos]
      simp [bne_iff_ne, h]
  · intro a b h
    by_cases hg : (a.isEmpty || b.isEmpty || a.length != b.length) = true
    · simp only [cosine_similarity]
      rw [if_pos hg]
    · simp only [cosine_similarity]
      rw [if_neg hg, if_pos h]
  · intro a b hlen hna hnb
    have hv := hval a b hlen hna hnb
    refine ⟨hv, ?_⟩
    have hA := sumSq_nonneg a
    have hB := sumSq_nonneg b
    have hnapos : 0 < Real.sqrt (sumSq a) :=
      lt_of_le_of_ne (Real.sqrt_nonneg _) (Ne.symm hna)
    have hnbpos : 0 < Real.sqrt (sumSq b) :=
      lt_of_le_of_ne (Real.sqrt_nonneg _) (Ne.symm hnb)
    have hprodpos : 0 < Real.sqrt (sumSq a) * Real.sqrt (sumSq b) :=
      mul_pos hnapos hnbpos
    have hcs : dotList a b ^ 2
        ≤ (Real.sqrt (sumSq a) * Real.sqrt (sumSq b)) ^ 2 := by
      rw [mul_pow, Real.sq_sqrt hA, Real.sq_sqrt hB]
      exact dotList_sq_le a b
    have habs : |dotList a b| ≤ Real.sqrt (sumSq a) * Real.sqrt (sumSq b) := by
      calc |dotList a b| = Real.sqrt (dotList a b ^ 2) :=
            (Real.sqrt_sq_eq_abs _).symm
        _ ≤ Real.sqrt ((Real.sqrt (sumSq a) * Real.sqrt (sumSq b)) ^ 2) :=
            Real.sqrt_le_sqrt hcs
        _ = |Real.sqrt (sumSq a) * Real.sqrt (sumSq b)| :=
            Real.sqrt_sq_eq_abs _
        _ = Real.sqrt (sumSq a) * Real.sqrt (sumSq b) :=
            abs_of_pos hprodpos
    have hratio : |cosine_similarity a b| ≤ 1 := by
      rw [hv, abs_div, abs_of_pos hprodpos]
      exact div_le_one_of_le₀ habs (le_of_lt hprodpos)
    exact ⟨(abs_le.mp hratio).1, (abs_le.mp hratio).2⟩
  · intro a hna
    have hv := hval a a rfl hna hna
    rw [hv, dotList_self, Real.mul_self_sqrt (sumSq_nonneg a)]
    exact div_self (ne_of_gt (sumSq_pos_of_sqrt_ne_zero hna))

/-- Witness for C2 at the concrete vectors [1, 0] and [0, 1] and at the
identical pair [3, 4]: the bounds hold and identical vectors score 1. -/
theorem cosine_similarity_spec_witness :
    (-1 ≤ cosine_similarity [(1 : ℝ), 0] [0, 1]
        ∧ cosine_similarity [(1 : ℝ), 0] [0, 1] ≤ 1)
    ∧ cosine_similarity [(3 : ℝ), 4] [3, 4] = 1 := by
  have h1 : Real.sqrt (sumSq [(1 : ℝ), 0]) ≠ 0 := by
    have : sumSq [(1 : ℝ), 0] = 1 := by
      rw [sumSq_cons, sumSq_cons, sumSq_nil]; norm_num
    rw [this, Real.sqrt_one]; norm_num
  have h2 : Real.sqrt (sumSq [(0 : ℝ), 1]) ≠ 0 := by
    have : sumSq [(0 : ℝ), 1] = 1 := by
      rw [sumSq_cons, sumSq_cons, sumSq_nil]; norm_num
    rw [this, Real.sqrt_one]; norm_num
  have h3 : Real.sqrt (sumSq [(3 : ℝ), 4]) ≠ 0 := by
    have : sumSq [(3 : ℝ), 4] = 25 := by
      rw [sumSq_cons, sumSq_cons, sumSq_nil]; norm_num
    rw [this]
    intro habs
    have := Real.sqrt_eq_zero'.mp habs
    norm_num at this
  have hmain := cosine_similarity_spec
  refine ⟨?_, hmain.2.2.2 [(3 : ℝ), 4] h3⟩
  have hb := hmain.2.2.1 [(1 : ℝ), 0] [0, 1] rfl h1 h2
  exact ⟨hb.2.1, hb.2.2⟩

/-- Example row for the lexical-score sentence of the spec: a clause titled
"계약 해지" with clause_number "제5조". -/
def lexExampleRow : Row :=
  ({ id := 10, document_id := 20, clause_number := "제5조",
     title := "계약 해지", body := "" },
   { id := 30, clause_id := 10, risk_level := "HIGH", summary := "",
     suggestion := "" },
   { id := 20, filename := "계약서.pdf", status := "done", created_at := 1,
     owner_id := 1 })

/-- C8: the lexical score is |query_tokens ∩ target_tokens| divided by
max(|query_tokens|, 1) over the tokenization of the query and of the
concatenated target text, is 0 when either token set is empty, always lies
in [0, 1], and for query "제5조 해지" against a candidate titled "계약 해지"
with clause_number "제5조" it is positive and at most 1. -/
theorem lexical_score_spec :
    (∀ (q : String) (row : Row),
        0 ≤ lexical_score q row ∧ lexical_score q row ≤ 1)
    ∧ (∀ (q : String) (row : Row), (tokenize q).dedup = [] →
        lexical_score q row = 0)
    ∧ (∀ (q : String) (row : Row),
        (tokenize (lexicalTarget row)).dedup = [] → lexical_score q row = 0)
    ∧ (∀ (q : String) (row : Row),
        (tokenize q).dedup ≠ [] →
        (tokenize (lexicalTarget row)).dedup ≠ [] →
        lexical_score q row =
          (((tokenize q).dedup.filter
              (fun t => (tokenize (lexicalTarget row)).dedup.contains t)).length : ℝ)
            / (max (tokenize q).dedup.length 1 : ℕ))
    ∧ (0 < lexical_score "제5조 해지" lexExampleRow
        ∧ lexical_score "제5조 해지" lexExampleRow ≤ 1) := by
  have hbounds : ∀ (q : String) (row : Row),
      0 ≤ lexical_score q row ∧ lexical_score q row ≤ 1 := by
    intro q row
    simp only [lexical_score]
    by_cases h1 : ((tokenize q).dedup).isEmpty = true
    · rw [if_pos h1]; norm_num
    · rw [if_neg h1]
      by_cases h2 : ((tokenize (lexicalTarget row)).dedup).isEmpty = true
      · rw [if_pos h2]; norm_num
      · rw [if_neg h2]
        have hd : (0 : ℝ) < ((max (tokenize q).dedup.length 1 : ℕ) : ℝ) := by
          exact_mod_cast Nat.lt_of_lt_of_le Nat.zero_lt_one
            (le_max_right (tokenize q).dedup.length 1)
        constructor
        · exact div_nonneg (Nat.cast_nonneg _) (le_of_lt hd)
        · apply div_le_one_of_le₀ _ (le_of_lt hd)
          exact_mod_cast le_trans (List.length_filter_le _ _)
            (le_max_left (tokenize q).dedup.length 1)
  refine ⟨hbounds, ?_, ?_, ?_, ?_⟩
  · intro q row h
    simp only [lexical_score, h]
    rfl
  · intro q row h
    simp only [lexical_score, h]
    by_cases h1 : ((tokenize q).dedup).isEmpty = true
    · rw [if_pos h1]
    · rw [if_neg h1]
      rfl
  · intro q row h1 h2
    simp only [lexical_score]
    rw [if_neg (by simp [List.isEmpty_eq_false, h1]),
      if_neg (by simp [List.isEmpty_eq_false, h2])]
  · have hq0 : tokenize "제5조 해지" = ["제5조", "해지"] := by decide
    have hq : (tokenize "제5조 해지").dedup = ["제5조", "해지"] := by
      rw [hq0]; decide
    have ht0 : tokenize (lexicalTarget lexExampleRow)
        = ["제5조", "계약", "해지"] := by decide
    have ht : (tokenize (lexicalTarget lexExampleRow)).dedup
        = ["제5조", "계약", "해지"] := by rw [ht0]; decide
    have hlen : ((["제5조", "해지"]).filter
        (fun t => (["제5조", "계약", "해지"]).contains t)).length = 2 := by decide
    have hm : max (["제5조", "해지"] : List String).length 1 = 2 := by decide
    constructor
    · simp only [lexical_score, hq, ht]
      rw [if_neg (by decide), if_neg (by decide), hlen, hm]
      norm_num
    · exact (hbounds "제5조 해지" lexExampleRow).2

/-- Witness for C8: the bounds instantiated at the example query and row. -/
theorem lexical_score_spec_witness :
    0 ≤ lexical_score "위약금" lexExampleRow
      ∧ lexical_score "위약금" lexExampleRow ≤ 1 :=
  lexical_score_spec.1 "위약금" lexExampleRow

/-- C6: with rerank enabled every fused score is
0.75·vector + 0.20·lexical + risk_boost, the boost being 0.05 for HIGH,
0.02 for MEDIUM and 0 otherwise, the vector score defaulting to 0 when the
clause id is absent from the candidate map; with rerank disabled the fused
score is the raw vector score. -/
theorem fused_score_spec :
    (∀ (q : String) (vh : List (Nat × ℝ)) (rows : List Row),
        fuseRows q vh true rows = rows.map (fun row =>
          ((0.75 * vectorScoreMapGet vh row.1.id)
              + (0.20 * lexical_score q row)
              + risk_boost row.2.1.risk_level, row)))
    ∧ (∀ (q : String) (vh : List (Nat × ℝ)) (rows : List Row),
        fuseRows q vh false rows = rows.map (fun row =>
          (vectorScoreMapGet vh row.1.id, row)))
    ∧ risk_boost "HIGH" = 0.05
    ∧ risk_boost "MEDIUM" = 0.02
    ∧ (∀ s : String, s ≠ "HIGH" → s ≠ "MEDIUM" → risk_boost s = 0)
    ∧ (∀ (vh : List (Nat × ℝ)) (cid : Nat), (∀ h ∈ vh, h.1 ≠ cid) →
        vectorScoreMapGet vh cid = 0) := by
  refine ⟨?_, ?_, ?_, ?_, ?_, ?_⟩
  · intro q vh rows
    simp [fuseRows, fusedScore]
  · intro q vh rows
    simp [fuseRows, fusedScore]
  · simp [risk_boost]
  · simp [risk_boost]
  · intro s h1 h2
    simp [risk_boost, h1, h2]
  · intro vh cid h
    have hnone : vh.reverse.find? (fun p => p.1 == cid) = none := by
      rw [List.find?_eq_none]
      intro x hx
      simp only [beq_iff_eq]
      exact h x (List.mem_reverse.mp hx)
    simp [vectorScoreMapGet, hnone]

/-- Witness for C6: the boost of an unclassified risk level is 0, and a
lookup in an empty candidate map defaults to 0. -/
theorem fused_score_spec_witness :
    risk_boost "UNKNOWN" = 0 ∧ vectorScoreMapGet [] 7 = 0 :=
  ⟨fused_score_spec.2.2.2.2.1 "UNKNOWN" (by decide) (by decide),
    fused_score_spec.2.2.2.2.2 [] 7 (by intro h hmem; cases hmem)⟩

lemma fusedScore_rerank_formula (q : String) (vh : List (Nat × ℝ))
    (r : Row) :
    fusedScore q vh true r
      = (0.75 * vectorScoreMapGet vh r.1.id)
        + (0.20 * lexical_score q r) + risk_boost r.2.1.risk_level := by
  simp [fusedScore]

/-- C7: ranking is the stable descending sort of the fused rows: the ranked
list is a permutation of the scored fetch output, is sorted by descending
fused score, preserves fetch order among equal scores, equals the raw
vector scores when rerank is disabled, and with rerank enabled a HIGH-risk
row that ties a MEDIUM- or LOW-risk row on vector and lexical score gets a
strictly greater fused score and therefore a strictly earlier position. -/
theorem rank_rows_spec :
    ∀ (q : String) (vh : List (Nat × ℝ)) (use_rerank : Bool)
      (rows : List Row),
      (rankRows (fuseRows q vh use_rerank rows)).Perm
          (fuseRows q vh use_rerank rows)
      ∧ List.Pairwise (fun x y : ℝ × Row => y.1 ≤ x.1)
          (rankRows (fuseRows q vh use_rerank rows))
      ∧ (∀ c : ℝ,
          (rankRows (fuseRows q vh use_rerank rows)).filter
              (fun x => x.1 = c)
            = (fuseRows q vh use_rerank rows).filter (fun x => x.1 = c))
      ∧ (fuseRows q vh false rows
          = rows.map (fun row => (vectorScoreMapGet vh row.1.id, row)))
      ∧ (∀ r1 r2 : Row, r1 ∈ rows → r2 ∈ rows →
          vectorScoreMapGet vh r1.1.id = vectorScoreMapGet vh r2.1.id →
          lexical_score q r1 = lexical_score q r2 →
          r1.2.1.risk_level = "HIGH" →
          (r2.2.1.risk_level = "MEDIUM" ∨ r2.2.1.risk_level = "LOW") →
          fusedScore q vh true r1 > fusedScore q vh true r2
          ∧ ∀ (i j : Fin (rankRows (fuseRows q vh true rows)).length),
              ((rankRows (fuseRows q vh true rows)).get i).1
                  = fusedScore q vh true r1 →
              ((rankRows (fuseRows q vh true rows)).get j).1
                  = fusedScore q vh true r2 →
              i < j) := by
  intro q vh use_rerank rows
  refine ⟨sortKeyDesc_perm _ _, sortKeyDesc_sorted _ _, ?_, ?_, ?_⟩
  · intro c
    apply sortKeyDesc_filter_stable
    intro x y hx hy
    have hx := of_decide_eq_true hx
    have hy := of_decide_eq_true hy
    rw [hx, hy]
  · simp [fuseRows, fusedScore]
  · intro r1 r2 _ _ hv hl h5 h6
    have hgt : fusedScore q vh true r1 > fusedScore q vh true r2 := by
      rw [fusedScore_rerank_formula, fusedScore_rerank_formula, hv, hl, h5]
      have hb1 : risk_boost "HIGH" = 0.05 := by simp [risk_boost]
      rcases h6 with h6 | h6 <;> rw [h6]
      · have hb2 : risk_boost "MEDIUM" = 0.02 := by simp [risk_boost]
        rw [hb1, hb2]; linarith
      · have hb2 : risk_boost "LOW" = 0 := by simp [risk_boost]
        rw [hb1, hb2]; linarith
    refine ⟨hgt, ?_⟩
    intro i j hi hj
    by_contra hij
    push_neg at hij
    have hsorted : List.Pairwise (fun x y : ℝ × Row => y.1 ≤ x.1)
        (rankRows (fuseRows q vh true rows)) :=
      sortKeyDesc_sorted (fun p : ℝ × Row => p.1) (fuseRows q vh true rows)
    rcases lt_or_eq_of_le hij with hlt | heq
    · have := (List.pairwise_iff_get.mp hsorted) j i hlt
      rw [hi, hj] at this
      exact absurd this (not_le.mpr hgt)
    · rw [← heq] at hi
      rw [hi] at hj
      exact absurd hj (ne_of_gt hgt)

/-- Example HIGH-risk row used by the ranking witness. -/
def rowHigh : Row :=
  (⟨1, 1, "제1조", "손해배상", ""⟩, ⟨1, 1, "HIGH", "", ""⟩,
    ⟨1, "a.pdf", "done", 0, 1⟩)

/-- Example MEDIUM-risk row used by the ranking witness. -/
def rowMed : Row :=
  (⟨2, 1, "제2조", "손해배상", ""⟩, ⟨2, 2, "MEDIUM", "", ""⟩,
    ⟨1, "a.pdf", "done", 0, 1⟩)

/-- Witness for C7: on two concrete rows tied on vector and lexical score,
the HIGH-risk row gets the strictly greater fused score. -/
theorem rank_rows_spec_witness :
    fusedScore "" [] true rowHigh > fusedScore "" [] true rowMed := by
  have hlex : ∀ r : Row, lexical_score "" r = 0 := by
    intro r
    have h0 : ((tokenize "").dedup).isEmpty = true := by decide
    simp only [lexical_score]
    rw [if_pos h0]
  exact ((rank_rows_spec "" [] true [rowHigh, rowMed]).2.2.2.2 rowHigh rowMed
    (by simp) (by simp) rfl ((hlex rowHigh).trans (hlex rowMed).symm) rfl
    (Or.inl rfl)).1

lemma mem_fetch_rows {db : DB} {u : Nat} {ids : List Nat}
    {d : Option Nat} {r : Row}
    (h : r ∈ fetch_rows_for_clause_ids db u ids d) :
    r ∈ joinedRows db ∧ r.2.2.owner_id = u ∧ r.2.2.status = "done" := by
  unfold fetch_rows_for_clause_ids at h
  by_cases hids : ids.isEmpty = true
  · rw [if_pos hids] at h
    cases h
  · rw [if_neg hids] at h
    have hm := List.mem_filter.mp h
    have hc := hm.2
    simp only [Bool.and_eq_true, beq_iff_eq] at hc
    exact ⟨hm.1, hc.1.1.1, hc.1.1.2⟩

/-- C1: the relational re-fetch only ever returns rows of documents owned
by the requesting user with status "done", and hence every citation of any
retrieval call — whatever clause ids the external index returned — is
backed by a joined row of the store whose document is owned by the user
and done. -/
theorem owner_scoping_spec :
    (∀ (db : DB) (user_id : Nat) (clause_ids : List Nat)
        (document_id : Option Nat),
        ∀ r ∈ fetch_rows_for_clause_ids db user_id clause_ids document_id,
          r.2.2.owner_id = user_id ∧ r.2.2.status = "done")
    ∧ (∀ (p : String → List ℝ)
        (q : List ℝ → Nat → Option Nat → Int → ℝ → List (Nat × ℝ))
        (db : DB) (user_id : Nat) (query_text : String)
        (document_id : Option Nat) (top_k : Int) (min_similarity : ℝ)
        (candidate_k : Int) (use_rerank : Bool),
        ∀ c ∈ (retrieve_relevant_context p q db user_id query_text
            document_id top_k min_similarity candidate_k use_rerank).citations,
          ∃ row : Row, row ∈ joinedRows db
            ∧ row.2.2.owner_id = user_id ∧ row.2.2.status = "done"
            ∧ c.clause_id = row.1.id ∧ c.document_id = row.2.2.id) := by
  constructor
  · intro db u ids d r h
    exact (mem_fetch_rows h).2
  · intro p q db u qt d tk ms ck ur c hc
    simp only [retrieve_relevant_context] at hc
    split at hc
    · cases hc
    · split at hc
      · cases hc
      · split at hc
        · cases hc
        · rcases List.mem_map.mp hc with ⟨x, hx, rfl⟩
          have hx1 : x ∈ retrievalRanked p q db u qt d ms ck ur :=
            (List.take_sublist _ _).mem hx
          have hx2 : x ∈ fuseRows qt
              (retrievalHits p q db u qt d ms ck) ur
              (retrievalRows p q db u qt d ms ck) :=
            (sortKeyDesc_perm (fun y : ℝ × Row => y.1) _).mem_iff.mp hx1
          rcases List.mem_map.mp hx2 with ⟨row, hrow, rfl⟩
          have hrow2 : row ∈ fetch_rows_for_clause_ids db u
              ((retrievalHits p q db u qt d ms ck).map (fun h => h.1)) d :=
            hrow
          have hfetch := mem_fetch_rows hrow2
          exact ⟨row, hfetch.1, hfetch.2.1, hfetch.2.2, rfl, rfl⟩

/-- Document row of the owner-scoping witness store. -/
def exDoc : Document := ⟨100, "계약서.pdf", "done", 5, 1⟩

/-- Clause row of the owner-scoping witness store. -/
def exClause : Clause := ⟨10, 100, "제1조", "목적", "본문"⟩

/-- Analysis row of the owner-scoping witness store. -/
def exAnalysis : ClauseAnalysis := ⟨11, 10, "LOW", "요약", "제안"⟩

/-- Store of the owner-scoping witness. -/
def exDb : DB := ⟨[exDoc], [exClause], [exAnalysis], []⟩

/-- Witness for C1: the one row the re-fetch returns on a concrete store
belongs to user 1 and to a "done" document. -/
theorem owner_scoping_spec_witness :
    ((exClause, exAnalysis, exDoc) : Row).2.2.owner_id = 1
      ∧ ((exClause, exAnalysis, exDoc) : Row).2.2.status = "done" :=
  owner_scoping_spec.1 exDb 1 [10] none (exClause, exAnalysis, exDoc)
    (by decide)

lemma contractContextRows_eq_nil {db : DB} {u : Nat}
    (h : (joinedRows db).filter (fun r : Row =>
        r.2.2.owner_id == u && r.2.2.status == "done") = [])
    (d : Option Nat) (c : Option (List Nat)) :
    contractContextRows db u d c = [] := by
  unfold contractContextRows
  rw [List.filter_eq_nil_iff] at h ⊢
  intro r hr hcond
  apply h r hr
  simp only [Bool.and_eq_true] at hcond ⊢
  exact hcond.1.1

lemma retrievalRows_eq_nil {db : DB} {u : Nat}
    (h : (joinedRows db).filter (fun r : Row =>
        r.2.2.owner_id == u && r.2.2.status == "done") = [])
    (p : String → List ℝ)
    (q : List ℝ → Nat → Option Nat → Int → ℝ → List (Nat × ℝ))
    (qt : String) (d : Option Nat) (ms : ℝ) (ck : Int) :
    retrievalRows p q db u qt d ms ck = [] := by
  unfold retrievalRows fetch_rows_for_clause_ids
  split
  · rfl
  · rw [List.filter_eq_nil_iff] at h ⊢
    intro r hr hcond
    apply h r hr
    simp only [Bool.and_eq_true] at hcond ⊢
    exact hcond.1.1

lemma build_contract_context_sentinel {db : DB} {u : Nat}
    (h : (joinedRows db).filter (fun r : Row =>
        r.2.2.owner_id == u && r.2.2.status == "done") = [])
    (d : Option Nat) (c : Option (List Nat)) :
    build_contract_context db u d c = noDataSentinel := by
  unfold build_contract_context
  rw [contractContextRows_eq_nil h d c]
  rfl

/-- C4: for a user with zero analyzed "done" clauses every retrieval call
returns the fixed no-data sentinel context — which is not the empty
string — together with an empty citation list. -/
theorem empty_user_sentinel_spec :
    ∀ (db : DB) (user_id : Nat),
      (joinedRows db).filter (fun r : Row =>
          r.2.2.owner_id == user_id && r.2.2.status == "done") = [] →
      noDataSentinel ≠ ""
      ∧ ∀ (p : String → List ℝ)
          (q : List ℝ → Nat → Option Nat → Int → ℝ → List (Nat × ℝ))
          (query_text : String) (document_id : Option Nat) (top_k : Int)
          (min_similarity : ℝ) (candidate_k : Int) (use_rerank : Bool),
          retrieve_relevant_context p q db user_id query_text document_id
              top_k min_similarity candidate_k use_rerank
            = { context := noDataSentinel, citations := [] } := by
  intro db u h
  refine ⟨by decide, ?_⟩
  intro p q qt d tk ms ck ur
  have hrows := retrievalRows_eq_nil h p q qt d ms ck
  have hctx := build_contract_context_sentinel h d (c := none)
  simp only [retrieve_relevant_context]
  split
  · rw [hctx]
  · split
    · rw [hctx]
    · split
      · rw [hctx]
      · rename_i hne
        rw [hrows] at hne
        simp at hne

/-- Provider of the sentinel witness: a constant non-empty embedding. -/
def cProvider : String → List ℝ := fun _ => [1]

/-- Index stub of the sentinel witness: it leaks a candidate id that no
relational row backs. -/
def cSearch : List ℝ → Nat → Option Nat → Int → ℝ → List (Nat × ℝ) :=
  fun _ _ _ _ _ => [(5, 0.9)]

/-- Empty store of the sentinel witness. -/
def emptyDb : DB := ⟨[], [], [], []⟩

/-- Witness for C4: on an empty store, with an index stub that still leaks
a candidate id, retrieval returns the sentinel and no citations. -/
theorem empty_user_sentinel_spec_witness :
    retrieve_relevant_context cProvider cSearch emptyDb 1 "질문" none 6
        0.35 30 true
      = { context := noDataSentinel, citations := [] } :=
  (empty_user_sentinel_spec emptyDb 1 rfl).2 cProvider cSearch "질문" none 6
    0.35 30 true

/-- C5: whenever a retrieval call produces citations, their number is at
most max(top_k, 1); citations and context blocks are built, in the same
order, from the same top-K ranked rows; and each citation's score is the
row's fused score rounded to 4 decimals. -/
theorem citation_alignment_spec :
    ∀ (p : String → List ℝ)
      (q : List ℝ → Nat → Option Nat → Int → ℝ → List (Nat × ℝ))
      (db : DB) (user_id : Nat) (query_text : String)
      (document_id : Option Nat) (top_k : Int) (min_similarity : ℝ)
      (candidate_k : Int) (use_rerank : Bool),
      (retrieve_relevant_context p q db user_id query_text document_id
          top_k min_similarity candidate_k use_rerank).citations ≠ [] →
      let R := retrieve_relevant_context p q db user_id query_text
        document_id top_k min_similarity candidate_k use_rerank
      let T := (retrievalRanked p q db user_id query_text document_id
        min_similarity candidate_k use_rerank).take (max top_k 1).toNat
      R.citations.length ≤ (max top_k 1).toNat
      ∧ R.citations = T.map (fun x => mkCitation x.1 x.2)
      ∧ R.context = format_context_rows (T.map (fun x => x.2))
      ∧ R.citations.map (fun c => c.clause_id) = T.map (fun x => x.2.1.id)
      ∧ R.citations.map (fun c => c.score) = T.map (fun x => round4 x.1) := by
  intro p q db u qt d tk ms ck ur h
  simp only [retrieve_relevant_context] at h ⊢
  split at h
  · exact absurd rfl h
  · split at h
    · exact absurd rfl h
    · split at h
      · exact absurd rfl h
      · rename_i h1 h2 h3
        simp only [if_neg h1, if_neg h2, if_neg h3]
        refine ⟨?_, trivial, trivial, ?_, ?_⟩
        · rw [List.length_map, List.length_take]
          exact min_le_left _ _
        · rw [List.map_map]
          rfl
        · rw [List.map_map]
          rfl

/-- Index stub of the citation witness: one candidate, clause 10. -/
def wSearch : List ℝ → Nat → Option Nat → Int → ℝ → List (Nat × ℝ) :=
  fun _ _ _ _ _ => [(10, 0.9)]

/-- Store of the citation witness: one done document of user 1 with one
analyzed clause of id 10. -/
def wDb : DB :=
  ⟨[⟨100, "b.pdf", "done", 7, 1⟩], [⟨10, 100, "제1조", "목적", "본문"⟩],
    [⟨11, 10, "LOW", "요약", "제안"⟩], []⟩

/-- Witness for C5: a concrete retrieval call that produces one citation
respects the top-k bound. -/
theorem citation_alignment_spec_witness :
    (retrieve_relevant_context cProvider wSearch wDb 1 "질문" none 1 0.35
        30 false).citations.length ≤ 1 := by
  have hne : (retrieve_relevant_context cProvider wSearch wDb 1 "질문" none
      1 0.35 30 false).citations ≠ [] := by
    have hval : (retrieve_relevant_context cProvider wSearch wDb 1 "질문"
        none 1 0.35 30 false).citations
        = [mkCitation 0.9 (⟨10, 100, "제1조", "목적", "본문"⟩,
            ⟨11, 10, "LOW", "요약", "제안"⟩, ⟨100, "b.pdf", "done", 7, 1⟩)] :=
      rfl
    rw [hval]
    exact List.cons_ne_nil _ _
  exact (citation_alignment_spec cProvider wSearch wDb 1 "질문" none 1 0.35
    30 false hne).1

/-- C9: the brute-force fallback returns at most max(candidate_k, 1)
pairs, sorted by similarity descending; every returned pair comes from a
candidate row whose stored vector parses to a list, carries that row's
cosine similarity, and clears the threshold; rows that fail to parse are
skipped; and when no truncation occurs every parsing row at or above the
threshold is returned. -/
theorem bruteforce_search_spec :
    ∀ (db : DB) (user_id : Nat) (qe : List ℝ) (document_id : Option Nat)
      (candidate_k : Int) (ms : ℝ),
      (fallback_bruteforce_search db user_id qe document_id candidate_k
          ms).length ≤ (max candidate_k 1).toNat
      ∧ List.Pairwise (fun x y : Nat × ℝ => y.2 ≤ x.2)
          (fallback_bruteforce_search db user_id qe document_id candidate_k
            ms)
      ∧ (∀ pr ∈ fallback_bruteforce_search db user_id qe document_id
            candidate_k ms,
          ∃ e ∈ bruteforceCandidates db user_id document_id, ∃ v,
            e.embedding_json = EmbJson.ok v ∧ pr.1 = e.clause_id
              ∧ pr.2 = cosine_similarity qe v ∧ ms ≤ pr.2)
      ∧ ((bruteforceScored qe ms
            (bruteforceCandidates db user_id document_id)).length
              ≤ (max candidate_k 1).toNat →
          ∀ e ∈ bruteforceCandidates db user_id document_id, ∀ v,
            e.embedding_json = EmbJson.ok v →
            ms ≤ cosine_similarity qe v →
            (e.clause_id, cosine_similarity qe v)
              ∈ fallback_bruteforce_search db user_id qe document_id
                  candidate_k ms) := by
  intro db u qe d ck ms
  by_cases hemp : (bruteforceCandidates db u d).isEmpty = true
  · have hnil : bruteforceCandidates db u d = [] := List.isEmpty_iff.mp hemp
    have hout : fallback_bruteforce_search db u qe d ck ms = [] := by
      unfold fallback_bruteforce_search
      rw [if_pos hemp]
    refine ⟨by rw [hout]; simp, by rw [hout]; simp, ?_, ?_⟩
    · intro pr hpr
      rw [hout] at hpr
      cases hpr
    · intro _ e he
      rw [hnil] at he
      cases he
  · have hout : fallback_bruteforce_search db u qe d ck ms
        = ((sortKeyDesc (fun p : ℝ × Nat => p.1)
            (bruteforceScored qe ms (bruteforceCandidates db u d))).take
              (max ck 1).toNat).map (fun p => (p.2, p.1)) := by
      unfold fallback_bruteforce_search
      rw [if_neg hemp]
    refine ⟨?_, ?_, ?_, ?_⟩
    · rw [hout, List.length_map, List.length_take]
      exact min_le_left _ _
    · rw [hout]
      rw [List.pairwise_map]
      exact List.Pairwise.sublist (List.take_sublist _ _)
        (sortKeyDesc_sorted (fun p : ℝ × Nat => p.1) _)
    · intro pr hpr
      rw [hout] at hpr
      rcases List.mem_map.mp hpr with ⟨x, hx, rfl⟩
      have hx1 : x ∈ sortKeyDesc (fun p : ℝ × Nat => p.1)
          (bruteforceScored qe ms (bruteforceCandidates db u d)) :=
        (List.take_sublist _ _).mem hx
      have hx2 : x ∈ bruteforceScored qe ms (bruteforceCandidates db u d) :=
        (sortKeyDesc_perm _ _).mem_iff.mp hx1
      rcases List.mem_filterMap.mp hx2 with ⟨e, he, hfe⟩
      refine ⟨e, he, ?_⟩
      cases hjson : e.embedding_json with
      | ok v =>
          rw [hjson] at hfe
          simp only at hfe
          by_cases hms : ms ≤ cosine_similarity qe v
          · rw [if_pos hms] at hfe
            injection hfe with hfe
            refine ⟨v, rfl, ?_, ?_, ?_⟩
            · rw [← hfe]
            · rw [← hfe]
            · rw [← hfe]
              exact hms
          · rw [if_neg hms] at hfe
            cases hfe
      | notList =>
          rw [hjson] at hfe
          exact Option.noConfusion hfe
      | malformed =>
          rw [hjson] at hfe
          exact Option.noConfusion hfe
    · intro hlen e he v hv hms
      have hmem1 : ((cosine_similarity qe v, e.clause_id) : ℝ × Nat)
          ∈ bruteforceScored qe ms (bruteforceCandidates db u d) := by
        apply List.mem_filterMap.mpr
        refine ⟨e, he, ?_⟩
        rw [hv]
        simp only [if_pos hms]
      have hmem2 : ((cosine_similarity qe v, e.clause_id) : ℝ × Nat)
          ∈ sortKeyDesc (fun p : ℝ × Nat => p.1)
              (bruteforceScored qe ms (bruteforceCandidates db u d)) :=
        (sortKeyDesc_perm _ _).mem_iff.mpr hmem1
      have htake : (sortKeyDesc (fun p : ℝ × Nat => p.1)
            (bruteforceScored qe ms (bruteforceCandidates db u d))).take
              (max ck 1).toNat
          = sortKeyDesc (fun p : ℝ × Nat => p.1)
              (bruteforceScored qe ms (bruteforceCandidates db u d)) := by
        apply List.take_of_length_le
        rw [(sortKeyDesc_perm _ _).length_eq]
        exact hlen
      rw [hout, htake]
      exact List.mem_map.mpr ⟨_, hmem2, rfl⟩

/-- Embedding row A of the fallback witness: vector [1, 0], newest. -/
def embA : ClauseEmbedding := ⟨1, 101, 1, 100, "m", EmbJson.ok [1, 0], "c", 2⟩

/-- Embedding row B of the fallback witness: vector [0, 1], older. -/
def embB : ClauseEmbedding := ⟨2, 102, 1, 100, "m", EmbJson.ok [0, 1], "c", 1⟩

/-- Store of the fallback witness. -/
def bDb : DB := ⟨[], [], [], [embA, embB]⟩

/-- Witness for C9: for query vector [1, 0] against candidates [1, 0] and
[0, 1] at threshold 0.5, the pair (101, 1) is returned. -/
theorem bruteforce_search_spec_witness :
    ((101 : Nat), (1 : ℝ))
      ∈ fallback_bruteforce_search bDb 1 [1, 0] none 30 0.5 := by
  have hcands : bruteforceCandidates bDb 1 none = [embA, embB] := rfl
  have hss : sumSq [(1 : ℝ), 0] = 1 := by
    rw [sumSq_cons, sumSq_cons, sumSq_nil]; norm_num
  have hd : dotList [(1 : ℝ), 0] [1, 0] = 1 := by
    rw [dotList_cons, dotList_cons, dotList_nil_left]; norm_num
  have hcos : cosine_similarity [(1 : ℝ), 0] [1, 0] = 1 := by
    simp only [cosine_similarity]
    rw [if_neg (by decide), hss, Real.sqrt_one,
      if_neg (by norm_num), hd]
    norm_num
  have hlen : (bruteforceScored [(1 : ℝ), 0] 0.5
      (bruteforceCandidates bDb 1 none)).length ≤ (max (30 : Int) 1).toNat := by
    rw [hcands]
    exact le_trans (List.length_filterMap_le _ _) (by norm_num)
  have h := (bruteforce_search_spec bDb 1 [1, 0] none 30 0.5).2.2.2 hlen embA
    (by rw [hcands]; exact List.mem_cons_self _ _) [1, 0] rfl
    (by rw [hcos]; norm_num)
  rw [hcos] at h
  exact h

/-- C10: the unranked context builder formats exactly the first
MAX_CLAUSES = 50 rows of the owner-scoped filtered join ordered by
descending document creation time; any further rows are omitted. -/
theorem unranked_context_cap_spec :
    ∀ (db : DB) (user_id : Nat) (document_id : Option Nat)
      (clause_ids : Option (List Nat)),
      build_contract_context db user_id document_id clause_ids
          = format_context_rows
              ((sortKeyDesc (fun r : Row => r.2.2.created_at)
                (contractContextRows db user_id document_id
                  clause_ids)).take MAX_CLAUSES)
      ∧ MAX_CLAUSES = 50
      ∧ ((sortKeyDesc (fun r : Row => r.2.2.created_at)
            (contractContextRows db user_id document_id
              clause_ids)).take MAX_CLAUSES).length
          = min MAX_CLAUSES
              (contractContextRows db user_id document_id clause_ids).length
      ∧ (sortKeyDesc (fun r : Row => r.2.2.created_at)
          (contractContextRows db user_id document_id clause_ids)).Perm
            (contractContextRows db user_id document_id clause_ids)
      ∧ List.Pairwise (fun x y : Row => y.2.2.created_at ≤ x.2.2.created_at)
          (sortKeyDesc (fun r : Row => r.2.2.created_at)
            (contractContextRows db user_id document_id clause_ids)) := by
  intro db u d c
  refine ⟨rfl, rfl, ?_, sortKeyDesc_perm _ _, sortKeyDesc_sorted _ _⟩
  rw [List.length_take, (sortKeyDesc_perm (fun r : Row => r.2.2.created_at)
    (contractContextRows db u d c)).length_eq]

/-- Witness for C10: the cap constant evaluated through the theorem. -/
theorem unranked_context_cap_spec_witness : MAX_CLAUSES = 50 :=
  (unranked_context_cap_spec emptyDb 1 none none).2.1

lemma upsert_appends_new_row (p : String → List ℝ) (db : DB)
    (clause : Clause) (analysis : Option ClauseAnalysis) (u d : Nat)
    (hc : (build_embedding_text clause analysis).isEmpty = false)
    (he : create_query_embedding p (build_embedding_text clause analysis)
        ≠ [])
    (hf : db.embeddings.find? (fun e => e.clause_id == clause.id) = none) :
    ∃ newE : ClauseEmbedding, newE.clause_id = clause.id
      ∧ (upsert_clause_embedding p db clause analysis u d).embeddings
          = db.embeddings ++ [newE] := by
  unfold upsert_clause_embedding
  rw [if_neg (by simp [hc]), if_neg (by simp [List.isEmpty_eq_false, he]),
    hf]
  exact ⟨_, rfl, rfl⟩

lemma backfill_foldl_snd (p : String → List ℝ) (u : Nat)
    (rows : List Row) : ∀ (s : DB) (n : Nat),
    ((rows.foldl (fun acc r =>
        (upsert_clause_embedding p acc.1 r.1 (some r.2.1) u r.2.2.id,
          acc.2 + 1)) (s, n)).2) = n + rows.length := by
  induction rows with
  | nil => intro s n; simp
  | cons r rest ih =>
      intro s n
      simp only [List.foldl_cons]
      rw [ih]
      simp only [List.length_cons]
      omega

lemma backfill_foldl_fst (p : String → List ℝ) (u : Nat)
    (rows : List Row) : ∀ (s : DB) (n : Nat),
    ((rows.foldl (fun acc r =>
        (upsert_clause_embedding p acc.1 r.1 (some r.2.1) u r.2.2.id,
          acc.2 + 1)) (s, n)).1)
      = rows.foldl (fun acc r =>
          upsert_clause_embedding p acc r.1 (some r.2.1) u r.2.2.id) s := by
  induction rows with
  | nil => intro s n; rfl
  | cons r rest ih =>
      intro s n
      simp only [List.foldl_cons]
      exact ih _ _

lemma backfill_fold_embeddings (p : String → List ℝ) (u : Nat) :
    ∀ (rows : List Row) (s : DB),
    (∀ r ∈ rows, (build_embedding_text r.1 (some r.2.1)).isEmpty = false
        ∧ create_query_embedding p (build_embedding_text r.1 (some r.2.1))
            ≠ []) →
    (∀ r ∈ rows,
        s.embeddings.find? (fun e => e.clause_id == r.1.id) = none) →
    ((rows.map (fun r => r.1.id)).Nodup) →
    ∃ extra : List ClauseEmbedding,
      (rows.foldl (fun acc r =>
          upsert_clause_embedding p acc r.1 (some r.2.1) u r.2.2.id)
        s).embeddings = s.embeddings ++ extra
      ∧ extra.map (fun e => e.clause_id) = rows.map (fun r => r.1.id) := by
  intro rows
  induction rows with
  | nil =>
      intro s _ _ _
      exact ⟨[], by simp, rfl⟩
  | cons r rest ih =>
      intro s hok hnone hnod
      obtain ⟨e1, he1c, he1⟩ := upsert_appends_new_row p s r.1 (some r.2.1)
        u r.2.2.id (hok r (List.mem_cons_self r rest)).1
        (hok r (List.mem_cons_self r rest)).2
        (hnone r (List.mem_cons_self r rest))
      simp only [List.map_cons, List.nodup_cons] at hnod
      have hnone1 : ∀ r2 ∈ rest,
          (upsert_clause_embedding p s r.1 (some r.2.1) u
              r.2.2.id).embeddings.find?
            (fun e => e.clause_id == r2.1.id) = none := by
        intro r2 hr2
        rw [he1, List.find?_append,
          hnone r2 (List.mem_cons_of_mem r hr2)]
        have hne : e1.clause_id ≠ r2.1.id := by
          rw [he1c]
          intro hcontra
          exact hnod.1 (hcontra ▸ List.mem_map_of_mem (fun x => x.1.id) hr2)
        have hbeq : (e1.clause_id == r2.1.id) = false :=
          beq_eq_false_iff_ne.mpr hne
        simp [List.find?, hbeq]
      obtain ⟨extra1, hex1, hmap1⟩ := ih
        (upsert_clause_embedding p s r.1 (some r.2.1) u r.2.2.id)
        (fun r2 hr2 => hok r2 (List.mem_cons_of_mem r hr2)) hnone1 hnod.2
      refine ⟨e1 :: extra1, ?_, ?_⟩
      · simp only [List.foldl_cons]
        rw [hex1, he1, List.append_assoc]
        rfl
      · simp only [List.map_cons, hmap1, he1c]

/-- C3: under the data-model invariants (distinct clause ids among the
swept rows) and a provider that embeds every swept content, backfill
returns exactly the number of swept un-embedded clauses, that many new
embedding rows are appended, and every swept clause ends with exactly one
embedding row. -/
theorem backfill_spec :
    ∀ (p : String → List ℝ) (db : DB) (user_id : Nat)
      (document_id : Option Nat),
      (∀ r ∈ backfillRows db user_id document_id,
          (build_embedding_text r.1 (some r.2.1)).isEmpty = false
          ∧ create_query_embedding p
              (build_embedding_text r.1 (some r.2.1)) ≠ []) →
      ((backfillRows db user_id document_id).map (fun r => r.1.id)).Nodup →
      (backfill_user_embeddings p db user_id document_id).2
          = (backfillRows db user_id document_id).length
      ∧ (backfill_user_embeddings p db user_id
            document_id).1.embeddings.length
          = db.embeddings.length
            + (backfillRows db user_id document_id).length
      ∧ ∀ r ∈ backfillRows db user_id document_id,
          ((backfill_user_embeddings p db user_id
              document_id).1.embeddings.filter
                (fun e => e.clause_id == r.1.id)).length = 1 := by
  intro p db u d hok hnod
  have hnone : ∀ r ∈ backfillRows db u d,
      db.embeddings.find? (fun e => e.clause_id == r.1.id) = none := by
    intro r hr
    unfold backfillRows at hr
    have hm := (List.mem_filter.mp hr).2
    simp only [Bool.and_eq_true] at hm
    exact Option.isNone_iff_eq_none.mp hm.1.2
  have hsnd : (backfill_user_embeddings p db u d).2
      = (backfillRows db u d).length := by
    unfold backfill_user_embeddings
    rw [backfill_foldl_snd]
    omega
  have hfst : (backfill_user_embeddings p db u d).1
      = (backfillRows db u d).foldl (fun acc r =>
          upsert_clause_embedding p acc r.1 (some r.2.1) u r.2.2.id) db := by
    unfold backfill_user_embeddings
    rw [backfill_foldl_fst]
  obtain ⟨extra, hex, hmap⟩ :=
    backfill_fold_embeddings p u (backfillRows db u d) db hok hnone hnod
  have hexlen : extra.length = (backfillRows db u d).length := by
    have := congrArg List.length hmap
    simpa using this
  refine ⟨hsnd, ?_, ?_⟩
  · rw [hfst, hex, List.length_append, hexlen]
  · intro r hr
    rw [hfst, hex, List.filter_append]
    have hdbnil : db.embeddings.filter (fun e => e.clause_id == r.1.id)
        = [] := by
      rw [List.filter_eq_nil_iff]
      exact List.find?_eq_none.mp (hnone r hr)
    rw [hdbnil, List.nil_append, ← List.countP_eq_length_filter]
    have hcount : List.countP (fun e => e.clause_id == r.1.id) extra
        = List.count r.1.id (extra.map (fun e => e.clause_id)) := by
      rw [List.count, List.countP_map]
      rfl
    rw [hcount, hmap]
    exact List.count_eq_one_of_mem hnod
      (List.mem_map_of_mem (fun x => x.1.id) hr)

/-- Store of the backfill witness: one done document of user 3 with five
analyzed clauses, clauses 4 and 5 already embedded. -/
def bfDb : DB :=
  ⟨[⟨200, "f.pdf", "done", 1, 3⟩],
    [⟨1, 200, "제1조", "a", "b"⟩, ⟨2, 200, "제2조", "a", "b"⟩,
      ⟨3, 200, "제3조", "a", "b"⟩, ⟨4, 200, "제4조", "a", "b"⟩,
      ⟨5, 200, "제5조", "a", "b"⟩],
    [⟨11, 1, "LOW", "s", "g"⟩, ⟨12, 2, "LOW", "s", "g"⟩,
      ⟨13, 3, "LOW", "s", "g"⟩, ⟨14, 4, "LOW", "s", "g"⟩,
      ⟨15, 5, "LOW", "s", "g"⟩],
    [⟨21, 4, 3, 200, "m", EmbJson.ok [1], "c", 0⟩,
      ⟨22, 5, 3, 200, "m", EmbJson.ok [1], "c", 0⟩]⟩

/-- Witness for C3: three un-embedded plus two embedded clauses yield
count 3 and five embedding rows in total. -/
theorem backfill_spec_witness :
    (backfill_user_embeddings cProvider bfDb 3 none).2 = 3
      ∧ (backfill_user_embeddings cProvider bfDb 3
          none).1.embeddings.length = 5 := by
  have hok : ∀ r ∈ backfillRows bfDb 3 none,
      (build_embedding_text r.1 (some r.2.1)).isEmpty = false
      ∧ create_query_embedding cProvider
          (build_embedding_text r.1 (some r.2.1)) ≠ [] := by
    intro r hr
    refine ⟨by fin_cases hr <;> decide, ?_⟩
    fin_cases hr <;>
      · simp only [create_query_embedding]
        rw [if_neg (by decide)]
        exact List.cons_ne_nil _ _
  have hnod : ((backfillRows bfDb 3 none).map (fun r => r.1.id)).Nodup := by
    decide
  have h := backfill_spec cProvider bfDb 3 none hok hnod
  refine ⟨h.1.trans (by decide), ?_⟩
  rw [h.2.1]
  decide
